import Mathlib

/-!
Verification of the gpio_sync repository: a two-process GPIO-based clock
synchronizer.  The oscillator process (gsync) runs a Kuramoto phase-coupling
loop; the recorder process (gtimer) timestamps GPIO edges into a
mutex-protected shared-memory slot.

The development shallowly embeds the C++ sources:
  - src/src/sync/sync.cc        (KuramotoSync)
  - src/src/gsync/gsync.cc      (oscillator event loop, free-running fallback)
  - src/src/gtimer/gtimer.cc    (recorder event loop)
  - src/include/util/shmem/shmem.hpp (shared memory management, mutex slot)
  - src/src/util/gpio/gpio.cc   (sysfs GPIO control)

Doubles are modelled as exact real numbers; std::sin is Real.sin; the
static_cast from double to long is truncation toward zero.  Machine state
that the code manipulates (sysfs files, the shared slot, the OS shared
memory calls) is modelled by explicit state passing.
-/

namespace GpioSync

/-- Timespec models struct timespec: seconds plus nanoseconds, both signed. -/
structure Timespec where
  sec : ℤ
  nsec : ℤ
deriving DecidableEq, Repr

/-- kSecToNano from sync.hpp: constexpr double kSecToNano = 1e9. -/
def kSecToNano : ℝ := 1000000000

/-- kPi from sync.hpp: the double literal 3.141592653589793 used by the code
in place of the mathematical pi. -/
def kPi : ℝ := 3.141592653589793

/-- kNumParticipants from sync.hpp: machines in the sync loop. -/
def kNumParticipants : ℤ := 2

/-- ToNano from sync.cc: total nanoseconds of a timespec as a double. -/
def toNano (ts : Timespec) : ℝ := (ts.sec : ℝ) * kSecToNano + (ts.nsec : ℝ)

/-- Truncation toward zero, the semantics of static_cast from double to
long for in-range values. -/
noncomputable def truncLong (x : ℝ) : ℤ := if 0 ≤ x then ⌊x⌋ else ⌈x⌉

/-- NormalizeTime from sync.cc: while tv_nsec is at least 1e9, carry one
second.  Negative tv_nsec values are left untouched by the loop. -/
def normalizeTime (t : Timespec) : Timespec :=
  if _h : 1000000000 ≤ t.nsec then
    normalizeTime { sec := t.sec + 1, nsec := t.nsec - 1000000000 }
  else t
termination_by t.nsec.toNat
decreasing_by
  omega

/-- NanoToRad from sync.cc, with the frequency baked into the conversion
factor made explicit: the code computes the factor as a function-local
static const from the frequency of the object of the FIRST call in the
process, so the factor frequency fc is a separate parameter from the
frequency of the object under call. -/
noncomputable def nanoToRad (fc : ℤ) (ns : ℝ) : ℝ :=
  ((2 * kPi * (fc : ℝ)) / kSecToNano) * ns

/-- RadToNano from sync.cc, factor frequency made explicit as in nanoToRad. -/
noncomputable def radToNano (fc : ℤ) (rad : ℝ) : ℝ :=
  (kSecToNano / (2 * kPi * (fc : ℝ))) * rad

/-- ComputeNewWakeup from sync.cc with the function-local static
conversion-factor frequency fc separated from the frequency f of the
object.  In a process whose first conversion call happened on an object of
frequency fc, every later call on an object of frequency f behaves as
computeNewWakeupC fc f. -/
noncomputable def computeNewWakeupC (fc f : ℤ) (couplingConstant : ℝ)
    (expected_wakeup actual_wakeup peer_wakeup : Timespec) : Timespec :=
  let expected_wakeup_ns := toNano expected_wakeup
  let actual_wakeup_ns := toNano actual_wakeup
  let peer_wakeup_ns := toNano peer_wakeup
  let omega_i := nanoToRad fc ((1 / (f : ℝ)) * kSecToNano)
  let dt_i := expected_wakeup_ns - actual_wakeup_ns
  let dtheta_i := nanoToRad fc dt_i
  let dt_j := expected_wakeup_ns - peer_wakeup_ns
  let dtheta_j := nanoToRad fc dt_j
  let dtheta_dt :=
    omega_i + (couplingConstant / (kNumParticipants : ℝ)) *
      Real.sin (dtheta_j - dtheta_i)
  normalizeTime
    { sec := actual_wakeup.sec,
      nsec := actual_wakeup.nsec + truncLong (radToNano fc dtheta_dt) }

/-- ComputeNewWakeup as executed in a fresh process: the static conversion
factors are seeded by this very call, so the factor frequency equals the
frequency of the object. -/
noncomputable def computeNewWakeup (f : ℤ) (couplingConstant : ℝ)
    (expected_wakeup actual_wakeup peer_wakeup : Timespec) : Timespec :=
  computeNewWakeupC f f couplingConstant expected_wakeup actual_wakeup
    peer_wakeup

/-- KuramotoSync object state: the two constructor parameters. -/
structure KuramotoSync where
  frequency : ℤ
  couplingConstant : ℝ

open Classical in
/-- KuramotoSync constructor from sync.cc: throws (here: none) when the
frequency or the coupling constant is not positive, otherwise stores both
parameters unchanged. -/
noncomputable def kuramotoNew (frequency : ℤ) (coupling_constant : ℝ) :
    Option KuramotoSync :=
  if frequency ≤ 0 then none
  else if coupling_constant ≤ 0 then none
  else some { frequency := frequency, couplingConstant := coupling_constant }

/-- SetWakeupUsingBaseFreq from gsync.cc: free-running schedule of the next
wakeup one period after the actual wakeup.  The trailing while loop of the
source is the same carry loop as NormalizeTime, shared here as
normalizeTime. -/
noncomputable def setWakeupUsingBaseFreq (actual_wakeup : Timespec)
    (frequency_hz : ℤ) : Timespec :=
  let dt_nano : ℝ := (1 / (frequency_hz : ℝ)) * kSecToNano
  normalizeTime
    { sec := actual_wakeup.sec, nsec := actual_wakeup.nsec + truncLong dt_nano }

/-- TsEqual lambda from gsync.cc RunEventLoop: field-wise timespec equality. -/
def tsEqual (a b : Timespec) : Bool :=
  a.sec == b.sec && a.nsec == b.nsec

/-- Wakeup decision of one gsync RunEventLoop cycle: if the peer slot holds
the never-reported sentinel (0,0) or the value seen on the previous cycle,
fall back to the base-frequency schedule, otherwise call the sync engine.
The engine is passed as a function so that non-invocation is expressible. -/
noncomputable def loopBodyWakeup
    (syncFn : Timespec → Timespec → Timespec → Timespec) (frequency_hz : ℤ)
    (expected_wakeup actual_wakeup peer_wakeup prev_peer_wakeup : Timespec) :
    Timespec :=
  if tsEqual { sec := 0, nsec := 0 } peer_wakeup ||
      tsEqual prev_peer_wakeup peer_wakeup then
    setWakeupUsingBaseFreq actual_wakeup frequency_hz
  else
    syncFn expected_wakeup actual_wakeup peer_wakeup

/-! Recorder process (gtimer.cc).  RunEventLoop repeats, while the exit flag
is unset: call WaitForEdge (return value discarded by the source), then lock
the shared slot, store the current monotonic time, unlock.  The environment
of one run is the list of iterations executed before the exit flag is seen
set; each iteration carries the WaitForEdge return value and the monotonic
time read by clock_gettime inside the critical section. -/

/-- One full recorder run: returns the final slot value and the list of
timestamps published to the slot, in order.  The WaitForEdge result
component of each iteration is bound but never inspected, exactly as in the
source, where the return value of WaitForEdge is discarded. -/
def gtimerRecorderRun : List (Bool × Timespec) → Timespec →
    Timespec × List Timespec
  | [], slot => (slot, [])
  | (_wait_result, now) :: rest, _slot =>
    let next := gtimerRecorderRun rest now
    (next.1, now :: next.2)

/-! GPIO sysfs model (gpio.cc).  A line is controlled through the files
direction, edge and value under its sysfs directory; the relevant state is
the content of those three files. -/

/-- Direction enum from gpio.hpp. -/
inductive GpioDirection
  | kInput
  | kOutput
deriving DecidableEq, Repr

/-- Edge enum from gpio.hpp. -/
inductive GpioEdge
  | kNone
  | kRising
  | kFalling
  | kBoth
deriving DecidableEq, Repr

/-- Contents of the sysfs attribute files of one GPIO line. -/
structure GpioFs where
  direction : String
  edge : String
  value : String
deriving DecidableEq, Repr

/-- Dir setter from gpio.cc: writes in or out to the direction file. -/
def dirSet (dir : GpioDirection) (fs : GpioFs) : GpioFs :=
  match dir with
  | .kInput => { fs with direction := "in" }
  | .kOutput => { fs with direction := "out" }

/-- Dir getter from gpio.cc: kInput iff the direction file reads in. -/
def dirGet (fs : GpioFs) : GpioDirection :=
  if fs.direction = "in" then .kInput else .kOutput

/-- EdgeType setter from gpio.cc: writes the edge keyword to the edge file.
No other file is touched. -/
def edgeTypeSet (edge : GpioEdge) (fs : GpioFs) : GpioFs :=
  match edge with
  | .kNone => { fs with edge := "none" }
  | .kRising => { fs with edge := "rising" }
  | .kFalling => { fs with edge := "falling" }
  | .kBoth => { fs with edge := "both" }

/-- Sysfs effect of WaitForEdge from gpio.cc: the first statement of
WaitForEdge is Dir(Direction::kInput); the rest of the function only reads
the value file through epoll. -/
def waitForEdgeFsEffect (fs : GpioFs) : GpioFs := dirSet .kInput fs

/-! Shared-memory management model (shmem.hpp).  IpShMem Initialize is
embedded over an oracle describing the responses of the operating system:
whether a segment with the key already exists, the ids returned by the two
shmget calls, whether shmat succeeded, the int value stored at the start of
the attached segment, and the return code of pthread_mutex_init. -/

/-- Mutex type attribute values used by the code. -/
inductive MutexKind
  | errorcheck
  | normal
deriving DecidableEq, Repr

/-- Mutex process-shared attribute values. -/
inductive MutexShared
  | processShared
  | processPrivate
deriving DecidableEq, Repr

/-- Mutex protocol attribute values. -/
inductive MutexProtocol
  | prioInherit
  | prioNone
deriving DecidableEq, Repr

/-- Attributes a mutex is initialized with. -/
structure MutexAttrs where
  kind : MutexKind
  shared : MutexShared
  protocol : MutexProtocol
deriving DecidableEq, Repr

/-- Operating-system responses observed by one Initialize call.  attachOk
records whether shmat succeeded; the source never consults it. -/
structure ShmEnv where
  segExists : Bool
  newId : ℤ
  existingId : ℤ
  attachOk : Bool
  attachWord : ℤ
  mutexInitRc : ℤ
deriving DecidableEq, Repr

/-- Result handle of a successful Initialize call: the creator flag and,
when this call initialized the embedded mutex, the attributes used. -/
structure ShmInitResult where
  isOwner : Bool
  mutexSetup : Option MutexAttrs
deriving DecidableEq, Repr

/-- IpShMem Initialize from shmem.hpp.  The first shmget uses
IPC_CREAT|IPC_EXCL, so with a fresh errno it sets errno to EEXIST exactly
when the segment already exists; in that case is_owner_ is cleared and the
existing id fetched.  A negative id aborts.  The attach failure check of
the source compares the int pointed to by the shmat return value against
-1 (it dereferences the pointer instead of comparing the pointer itself),
so the embedded check reads env.attachWord and ignores env.attachOk.  Only
the owner initializes the mutex, with the errorcheck, process-shared and
priority-inheritance attributes; a nonzero init return code aborts. -/
def shmemInit (env : ShmEnv) (shmkey : ℤ) : Option ShmInitResult :=
  if shmkey ≤ 0 then none
  else
    let isOwner := !env.segExists
    let id : ℤ := if env.segExists then env.existingId else env.newId
    if id < 0 then none
    else if env.attachWord = -1 then none
    else if isOwner then
      if env.mutexInitRc ≠ 0 then none
      else
        some { isOwner := true,
               mutexSetup := some { kind := .errorcheck,
                                    shared := .processShared,
                                    protocol := .prioInherit } }
    else some { isOwner := false, mutexSetup := none }

/-! Concurrency model for the shared timestamp slot.  The recorder writes
the slot under the mutex (gtimer.cc RunEventLoop: Lock, store both fields,
Unlock); the oscillator reads it under the mutex (gsync.cc RunEventLoop:
Lock, copy both fields, Unlock).  Field accesses are the atomic actions;
the mutex is modelled by a holder variable (0 free, 1 recorder, 2
oscillator) and a blocked acquire leaves the state unchanged. -/

/-- Interleaved state of one recorder write and one oscillator read of the
slot.  wpc and rpc are the program counters of the writer and the reader:
0 before the lock, 1 to 3 inside the critical section, 4 after unlock. -/
structure SlotState where
  slotSec : ℤ
  slotNsec : ℤ
  lockHolder : ℕ
  wpc : ℕ
  rpc : ℕ
  readSec : ℤ
  readNsec : ℤ
deriving DecidableEq, Repr

/-- Initial state: the slot holds the previously stored timestamp, the lock
is free, neither thread has started. -/
def initSlot (oldSec oldNsec : ℤ) : SlotState :=
  { slotSec := oldSec, slotNsec := oldNsec, lockHolder := 0,
    wpc := 0, rpc := 0, readSec := 0, readNsec := 0 }

/-- One atomic action of the chosen thread (true: recorder writer, false:
oscillator reader).  Lock acquisition succeeds only when the lock is free;
otherwise the thread stays blocked and the state is unchanged. -/
def concStep (newSec newNsec : ℤ) (tid : Bool) (s : SlotState) : SlotState :=
  if tid then
    if s.wpc = 0 then
      if s.lockHolder = 0 then { s with lockHolder := 1, wpc := 1 } else s
    else if s.wpc = 1 then { s with slotSec := newSec, wpc := 2 }
    else if s.wpc = 2 then { s with slotNsec := newNsec, wpc := 3 }
    else if s.wpc = 3 then { s with lockHolder := 0, wpc := 4 }
    else s
  else
    if s.rpc = 0 then
      if s.lockHolder = 0 then { s with lockHolder := 2, rpc := 1 } else s
    else if s.rpc = 1 then { s with readSec := s.slotSec, rpc := 2 }
    else if s.rpc = 2 then { s with readNsec := s.slotNsec, rpc := 3 }
    else if s.rpc = 3 then { s with lockHolder := 0, rpc := 4 }
    else s

/-- Run a schedule: the list gives which thread takes each atomic step. -/
def concRun (newSec newNsec : ℤ) : List Bool → SlotState → SlotState
  | [], s => s
  | tid :: rest, s => concRun newSec newNsec rest (concStep newSec newNsec tid s)

/-- Inductive invariant of the interleaved system, relative to the old slot
content and the newly written content: the lock holder matches the program
counters, the slot content is staged by the writer counter, and everything
the reader has copied is consistent with a single complete write. -/
def concInv (oS oN nS nN : ℤ) (s : SlotState) : Prop :=
  s.wpc ≤ 4 ∧ s.rpc ≤ 4 ∧ s.lockHolder ≤ 2 ∧
  (s.lockHolder = 1 ↔ (1 ≤ s.wpc ∧ s.wpc ≤ 3)) ∧
  (s.lockHolder = 2 ↔ (1 ≤ s.rpc ∧ s.rpc ≤ 3)) ∧
  (s.wpc ≤ 1 → s.slotSec = oS ∧ s.slotNsec = oN) ∧
  (s.wpc = 2 → s.slotSec = nS ∧ s.slotNsec = oN) ∧
  (3 ≤ s.wpc → s.slotSec = nS ∧ s.slotNsec = nN) ∧
  (s.rpc = 2 →
    (s.readSec = oS ∧ s.slotSec = oS ∧ s.slotNsec = oN) ∨
    (s.readSec = nS ∧ s.slotSec = nS ∧ s.slotNsec = nN)) ∧
  (3 ≤ s.rpc →
    (s.readSec = oS ∧ s.readNsec = oN) ∨ (s.readSec = nS ∧ s.readNsec = nN))

/-! Helper lemmas. -/

lemma kPi_pos : 0 < kPi := by
  unfold kPi
  norm_num

lemma normalizeTime_toNano (t : Timespec) :
    toNano (normalizeTime t) = toNano t := by
  induction t using normalizeTime.induct with
  | case1 t h ih =>
    rw [normalizeTime, dif_pos h]
    rw [ih]
    unfold toNano kSecToNano
    push_cast
    ring
  | case2 t h =>
    rw [normalizeTime, dif_neg h]

lemma normalizeTime_nsec_lt (t : Timespec) :
    (normalizeTime t).nsec < 1000000000 := by
  induction t using normalizeTime.induct with
  | case1 t h ih =>
    rw [normalizeTime, dif_pos h]
    exact ih
  | case2 t h =>
    rw [normalizeTime, dif_neg h]
    omega

lemma normalizeTime_nsec_nonneg (t : Timespec) (h0 : 0 ≤ t.nsec) :
    0 ≤ (normalizeTime t).nsec := by
  induction t using normalizeTime.induct with
  | case1 t h ih =>
    rw [normalizeTime, dif_pos h]
    refine ih ?_
    show (0 : ℤ) ≤ t.nsec - 1000000000
    omega
  | case2 t h =>
    rw [normalizeTime, dif_neg h]
    exact h0

lemma normalizeTime_eq_self (t : Timespec) (h : t.nsec < 1000000000) :
    normalizeTime t = t := by
  rw [normalizeTime, dif_neg (by omega)]

lemma truncLong_of_nonneg {x : ℝ} (h : 0 ≤ x) : truncLong x = ⌊x⌋ := by
  unfold truncLong
  rw [if_pos h]

lemma truncLong_nonneg {x : ℝ} (h : 0 ≤ x) : 0 ≤ truncLong x := by
  rw [truncLong_of_nonneg h]
  exact Int.floor_nonneg.mpr h

lemma radToNano_nanoToRad (fc : ℤ) (hfc : (fc : ℝ) ≠ 0) (x : ℝ) :
    radToNano fc (nanoToRad fc x) = x := by
  unfold radToNano nanoToRad kSecToNano
  have hpi : kPi ≠ 0 := ne_of_gt kPi_pos
  field_simp
  ring

lemma nanoToRad_sub (fc : ℤ) (a b : ℝ) :
    nanoToRad fc a - nanoToRad fc b = nanoToRad fc (a - b) := by
  unfold nanoToRad
  ring

lemma radToNano_add (fc : ℤ) (a b : ℝ) :
    radToNano fc (a + b) = radToNano fc a + radToNano fc b := by
  unfold radToNano
  ring

lemma computeNewWakeupC_eq (fc f : ℤ) (K : ℝ) (e a p : Timespec)
    (hfc : (fc : ℝ) ≠ 0) :
    computeNewWakeupC fc f K e a p =
      normalizeTime
        { sec := a.sec,
          nsec := a.nsec + truncLong ((1 / (f : ℝ)) * kSecToNano +
            radToNano fc ((K / 2) *
              Real.sin (nanoToRad fc (toNano a - toNano p)))) } := by
  unfold computeNewWakeupC
  simp only
  congr 3
  rw [nanoToRad_sub]
  have harg : toNano e - toNano p - (toNano e - toNano a) =
      toNano a - toNano p := by ring
  rw [harg]
  have hnum : (K / (kNumParticipants : ℝ)) = K / 2 := by
    unfold kNumParticipants
    norm_num
  rw [hnum, radToNano_add, radToNano_nanoToRad fc hfc]

lemma computeNewWakeup_equal_inputs_aux (f : ℤ) (K : ℝ) (hf : 1 ≤ f)
    (t0 : Timespec) :
    computeNewWakeup f K t0 t0 t0 =
      normalizeTime
        { sec := t0.sec, nsec := t0.nsec + ⌊(1000000000 : ℝ) / (f : ℝ)⌋ } := by
  have hf0 : (0 : ℝ) < (f : ℝ) := by
    exact_mod_cast Int.lt_of_lt_of_le Int.zero_lt_one hf
  rw [computeNewWakeup, computeNewWakeupC_eq f f K t0 t0 t0 (ne_of_gt hf0)]
  congr 2
  rw [sub_self, nanoToRad, mul_zero, Real.sin_zero, mul_zero, radToNano,
    mul_zero, add_zero]
  have hx : (1 / (f : ℝ)) * kSecToNano = (1000000000 : ℝ) / (f : ℝ) := by
    unfold kSecToNano
    ring
  rw [hx, truncLong_of_nonneg (by positivity)]

/-! Claim theorems. -/

/-- C8: the KuramotoSync constructor rejects (throws) exactly when
frequency is nonpositive or the coupling constant is nonpositive, and for
frequency at least 1 and positive coupling constant it succeeds and stores
both parameters unchanged. -/
theorem kuramotoNew_spec (f : ℤ) (K : ℝ) :
    (kuramotoNew f K = none ↔ (f ≤ 0 ∨ K ≤ 0)) ∧
    (1 ≤ f → 0 < K →
      kuramotoNew f K = some { frequency := f, couplingConstant := K }) := by
  constructor
  · unfold kuramotoNew
    by_cases h1 : f ≤ 0
    · simp [h1]
    · by_cases h2 : K ≤ 0
      · simp [h1, h2]
      · simp [h1, h2]
  · intro h1 h2
    unfold kuramotoNew
    rw [if_neg (by omega), if_neg (by push_neg; exact h2)]

/-- C8 witness: frequency 100 with coupling constant one half constructs
successfully and stores both parameters. -/
theorem kuramotoNew_spec_witness :
    kuramotoNew 100 (1 / 2) =
      some { frequency := 100, couplingConstant := 1 / 2 } :=
  (kuramotoNew_spec 100 (1 / 2)).2 (by norm_num) (by norm_num)

/-- C2 counterexample: at frequency 3 Hz with all three inputs equal to
(0,0), the computed wakeup differs from the actual wakeup by 333333333
nanoseconds, which is not exactly one period of 1e9/3 nanoseconds, so the
claim as stated fails for frequencies that do not divide 1e9. -/
theorem computeNewWakeup_period_counterexample :
    toNano (computeNewWakeup 3 1 { sec := 0, nsec := 0 } { sec := 0, nsec := 0 }
        { sec := 0, nsec := 0 }) -
      toNano { sec := 0, nsec := 0 } ≠ (1000000000 : ℝ) / 3 := by
  rw [computeNewWakeup_equal_inputs_aux 3 1 (by norm_num)]
  have hfl : ⌊(1000000000 : ℝ) / ((3 : ℤ) : ℝ)⌋ = 333333333 := by
    have h3 : ((3 : ℤ) : ℝ) = 3 := by norm_num
    rw [h3, Int.floor_eq_iff]
    norm_num
  rw [normalizeTime_eq_self _
    (by rw [hfl]; show (0 + 333333333 : ℤ) < 1000000000; norm_num)]
  simp only [toNano, kSecToNano, hfl]
  norm_num

/-- C2 amended: with equal inputs the new wakeup is the actual wakeup plus
the truncation of 1e9/frequency nanoseconds (exactly one period whenever
frequency divides 1e9); in particular at 100 Hz with coupling constant one
half the result is exactly the input plus 10,000,000 nanoseconds. -/
theorem computeNewWakeup_equal_inputs (f : ℤ) (K : ℝ) (hf : 1 ≤ f)
    (_hK : 0 < K) (t0 : Timespec) (_h0 : 0 ≤ t0.nsec)
    (_h1 : t0.nsec < 1000000000) :
    computeNewWakeup f K t0 t0 t0 =
      normalizeTime
        { sec := t0.sec,
          nsec := t0.nsec + ⌊(1000000000 : ℝ) / (f : ℝ)⌋ } ∧
    toNano (computeNewWakeup 100 (1 / 2) t0 t0 t0) = toNano t0 + 10000000 := by
  refine ⟨computeNewWakeup_equal_inputs_aux f K hf t0, ?_⟩
  rw [computeNewWakeup_equal_inputs_aux 100 (1 / 2) (by norm_num) t0]
  rw [normalizeTime_toNano]
  have hfl : ⌊(1000000000 : ℝ) / ((100 : ℤ) : ℝ)⌋ = 10000000 := by
    norm_num
  simp only [toNano, kSecToNano, hfl]
  push_cast
  ring

/-- C2 witness: instantiation of the amended statement at frequency 100,
coupling constant one half and input (5, 999999999). -/
theorem computeNewWakeup_equal_inputs_witness :
    computeNewWakeup 100 (1 / 2) { sec := 5, nsec := 999999999 }
        { sec := 5, nsec := 999999999 } { sec := 5, nsec := 999999999 } =
      normalizeTime
        { sec := 5,
          nsec := 999999999 + ⌊(1000000000 : ℝ) / ((100 : ℤ) : ℝ)⌋ } ∧
    toNano (computeNewWakeup 100 (1 / 2) { sec := 5, nsec := 999999999 }
        { sec := 5, nsec := 999999999 } { sec := 5, nsec := 999999999 }) =
      toNano { sec := 5, nsec := 999999999 } + 10000000 :=
  computeNewWakeup_equal_inputs 100 (1 / 2) (by norm_num) (by norm_num)
    { sec := 5, nsec := 999999999 } (by norm_num) (by norm_num)

/-- C3: when the peer slot holds the never-reported sentinel (0,0) or the
value observed on the previous cycle, the oscillator cycle does not invoke
the sync engine at all (the result is the same for every engine function g)
and instead schedules the free-running wakeup: actual plus the truncation
of 1e9/frequency nanoseconds, normalized so the nanosecond field lands in
[0, 1e9). -/
theorem staleness_fallback (g : Timespec → Timespec → Timespec → Timespec)
    (f : ℤ) (e a peer prev : Timespec) (hf : 1 ≤ f)
    (hstale : tsEqual { sec := 0, nsec := 0 } peer = true ∨
      tsEqual prev peer = true)
    (h0 : 0 ≤ a.nsec) :
    loopBodyWakeup g f e a peer prev = setWakeupUsingBaseFreq a f ∧
    setWakeupUsingBaseFreq a f =
      normalizeTime
        { sec := a.sec, nsec := a.nsec + ⌊(1000000000 : ℝ) / (f : ℝ)⌋ } ∧
    0 ≤ (setWakeupUsingBaseFreq a f).nsec ∧
    (setWakeupUsingBaseFreq a f).nsec < 1000000000 := by
  have hf0 : (0 : ℝ) < (f : ℝ) := by
    exact_mod_cast Int.lt_of_lt_of_le Int.zero_lt_one hf
  have hbody : loopBodyWakeup g f e a peer prev =
      setWakeupUsingBaseFreq a f := by
    unfold loopBodyWakeup
    rcases hstale with h | h <;> rw [if_pos (by rw [h]; simp)]
  have heq : setWakeupUsingBaseFreq a f =
      normalizeTime
        { sec := a.sec, nsec := a.nsec + ⌊(1000000000 : ℝ) / (f : ℝ)⌋ } := by
    unfold setWakeupUsingBaseFreq
    simp only
    congr 2
    have hx : (1 / (f : ℝ)) * kSecToNano = (1000000000 : ℝ) / (f : ℝ) := by
      unfold kSecToNano
      ring
    rw [hx, truncLong_of_nonneg (by positivity)]
  refine ⟨hbody, heq, ?_, ?_⟩
  · rw [heq]
    refine normalizeTime_nsec_nonneg _ ?_
    have : (0 : ℤ) ≤ ⌊(1000000000 : ℝ) / (f : ℝ)⌋ :=
      Int.floor_nonneg.mpr (by positivity)
    simp only
    omega
  · rw [heq]
    exact normalizeTime_nsec_lt _

/-- C3 witness: instantiation with a constant engine function, frequency
100, actual wakeup (1, 999999999), sentinel peer value and a distinct
previous peer value. -/
theorem staleness_fallback_witness :
    loopBodyWakeup (fun _ _ _ => { sec := 42, nsec := 0 }) 100
        { sec := 5, nsec := 0 } { sec := 1, nsec := 999999999 }
        { sec := 0, nsec := 0 } { sec := 7, nsec := 7 } =
      setWakeupUsingBaseFreq { sec := 1, nsec := 999999999 } 100 ∧
    setWakeupUsingBaseFreq { sec := 1, nsec := 999999999 } 100 =
      normalizeTime
        { sec := 1,
          nsec := 999999999 + ⌊(1000000000 : ℝ) / ((100 : ℤ) : ℝ)⌋ } ∧
    0 ≤ (setWakeupUsingBaseFreq { sec := 1, nsec := 999999999 } 100).nsec ∧
    (setWakeupUsingBaseFreq { sec := 1, nsec := 999999999 } 100).nsec <
      1000000000 :=
  staleness_fallback (fun _ _ _ => { sec := 42, nsec := 0 }) 100
    { sec := 5, nsec := 0 } { sec := 1, nsec := 999999999 }
    { sec := 0, nsec := 0 } { sec := 7, nsec := 7 } (by norm_num)
    (Or.inl (by decide)) (by norm_num)

/-- C1 amended: for a successfully constructed KuramotoSync whose coupling
constant moreover does not exceed 4 times kPi, with all three inputs
normalized, the computed wakeup is at least the actual wakeup and its
nanosecond field lies in [0, 1e9).  Without the added upper bound on the
coupling constant the property fails, as the counterexample shows. -/
theorem computeNewWakeup_ge_actual (f : ℤ) (K : ℝ) (hf : 1 ≤ f) (hK0 : 0 < K)
    (hK : K ≤ 4 * kPi) (e a p : Timespec)
    (_he0 : 0 ≤ e.nsec) (_he1 : e.nsec < 1000000000)
    (ha0 : 0 ≤ a.nsec) (_ha1 : a.nsec < 1000000000)
    (_hp0 : 0 ≤ p.nsec) (_hp1 : p.nsec < 1000000000) :
    toNano a ≤ toNano (computeNewWakeup f K e a p) ∧
    0 ≤ (computeNewWakeup f K e a p).nsec ∧
    (computeNewWakeup f K e a p).nsec < 1000000000 := by
  have hf0 : (0 : ℝ) < (f : ℝ) := by
    exact_mod_cast Int.lt_of_lt_of_le Int.zero_lt_one hf
  have hkPi := kPi_pos
  rw [computeNewWakeup, computeNewWakeupC_eq f f K e a p (ne_of_gt hf0)]
  set s := Real.sin (nanoToRad f (toNano a - toNano p)) with hs
  set O := (1 / (f : ℝ)) * kSecToNano + radToNano f ((K / 2) * s) with hO
  have hsl : -1 ≤ s := Real.neg_one_le_sin _
  have hid : O = (kSecToNano / (2 * kPi * (f : ℝ))) * (2 * kPi + (K / 2) * s) := by
    rw [hO]
    unfold radToNano
    field_simp
    ring
  have hfac : (0 : ℝ) ≤ kSecToNano / (2 * kPi * (f : ℝ)) := by
    unfold kSecToNano
    positivity
  have hsecond : (0 : ℝ) ≤ 2 * kPi + (K / 2) * s := by
    nlinarith [mul_nonneg (le_of_lt hK0) (by linarith : (0 : ℝ) ≤ s + 1)]
  have hOpos : 0 ≤ O := by
    rw [hid]
    exact mul_nonneg hfac hsecond
  have htr : 0 ≤ truncLong O := truncLong_nonneg hOpos
  refine ⟨?_, ?_, ?_⟩
  · rw [normalizeTime_toNano]
    unfold toNano
    push_cast
    have : (0 : ℝ) ≤ (truncLong O : ℝ) := by exact_mod_cast htr
    linarith
  · refine normalizeTime_nsec_nonneg _ ?_
    show (0 : ℤ) ≤ a.nsec + truncLong O
    omega
  · exact normalizeTime_nsec_lt _

/-- C1 witness: instantiation of the amended statement at frequency 100,
coupling constant one half (which is at most 4 kPi) and all inputs (0,0). -/
theorem computeNewWakeup_ge_actual_witness :
    toNano { sec := 0, nsec := 0 } ≤
      toNano (computeNewWakeup 100 (1 / 2) { sec := 0, nsec := 0 }
        { sec := 0, nsec := 0 } { sec := 0, nsec := 0 }) ∧
    0 ≤ (computeNewWakeup 100 (1 / 2) { sec := 0, nsec := 0 }
        { sec := 0, nsec := 0 } { sec := 0, nsec := 0 }).nsec ∧
    (computeNewWakeup 100 (1 / 2) { sec := 0, nsec := 0 }
        { sec := 0, nsec := 0 } { sec := 0, nsec := 0 }).nsec < 1000000000 :=
  computeNewWakeup_ge_actual 100 (1 / 2) (by norm_num) (by norm_num)
    (by unfold kPi; norm_num) { sec := 0, nsec := 0 } { sec := 0, nsec := 0 }
    { sec := 0, nsec := 0 } (by norm_num) (by norm_num) (by norm_num)
    (by norm_num) (by norm_num) (by norm_num)

/-- C1 counterexample: with frequency 1 and coupling constant 1000, both
accepted by the constructor, and all inputs normalized, the computed wakeup
has a negative nanosecond field and precedes the actual wakeup, so the
claim as stated is false. -/
theorem computeNewWakeup_ge_actual_counterexample :
    (computeNewWakeup 1 1000 { sec := 0, nsec := 0 } { sec := 0, nsec := 0 }
        { sec := 0, nsec := 25000000 }).nsec < 0 ∧
    toNano (computeNewWakeup 1 1000 { sec := 0, nsec := 0 }
        { sec := 0, nsec := 0 } { sec := 0, nsec := 25000000 }) <
      toNano { sec := 0, nsec := 0 } := by
  have hkPi := kPi_pos
  have hkPiub : kPi < 3.15 := by unfold kPi; norm_num
  rw [computeNewWakeup, computeNewWakeupC_eq 1 1 1000 _ _ _ (by norm_num)]
  have harg : nanoToRad 1 (toNano { sec := 0, nsec := 0 } -
      toNano { sec := 0, nsec := 25000000 }) = -(kPi / 20) := by
    unfold nanoToRad toNano kSecToNano
    push_cast
    ring
  rw [harg, Real.sin_neg]
  set s0 := Real.sin (kPi / 20) with hs0
  have hs0lb : kPi / 20 - (kPi / 20) ^ 3 / 4 < s0 :=
    Real.sin_gt_sub_cube (by unfold kPi; norm_num) (by unfold kPi; norm_num)
  have hs0lb2 : (0.156 : ℝ) < s0 := by
    refine lt_of_le_of_lt ?_ hs0lb
    unfold kPi
    norm_num
  set O := (1 / ((1 : ℤ) : ℝ)) * kSecToNano +
    radToNano 1 ((1000 / 2) * -s0) with hO
  have hOid : O = 1000000000 - 500 * ((1000000000 / (2 * kPi)) * s0) := by
    rw [hO]
    unfold radToNano kSecToNano
    push_cast
    field_simp
    ring
  have hfac : (158000000 : ℝ) ≤ 1000000000 / (2 * kPi) := by
    rw [le_div_iff₀ (by positivity)]
    nlinarith
  have hprod : (158000000 : ℝ) * 0.156 ≤ (1000000000 / (2 * kPi)) * s0 :=
    mul_le_mul hfac (le_of_lt hs0lb2) (by norm_num)
      (le_trans (by norm_num) hfac)
  have hOle : O ≤ -1 := by
    rw [hOid]
    nlinarith
  have htr : truncLong O = ⌈O⌉ := by
    unfold truncLong
    rw [if_neg (by push_neg; linarith)]
  have hceil : ⌈O⌉ ≤ -1 := Int.ceil_le.mpr (by push_cast; linarith)
  rw [normalizeTime_eq_self _ (by rw [htr]; show (0 : ℤ) + ⌈O⌉ < 1000000000; omega)]
  constructor
  · show (0 : ℤ) + truncLong O < 0
    rw [htr]
    omega
  · unfold toNano
    rw [htr]
    push_cast
    have : ((⌈O⌉ : ℤ) : ℝ) ≤ -1 := by exact_mod_cast hceil
    simp only [kSecToNano]
    nlinarith

/-- C6: ComputeNewWakeup is NOT deterministic across objects in one
process.  NanoToRad and RadToNano compute their conversion factors as
function-local static constants from the frequency of the object of the
first call in the process, so a later call on an object constructed with a
different frequency reuses the stale factors.  Here: after any first call
on a 100 Hz object, a call on a KuramotoSync(700, 1) object (modelled by
computeNewWakeupC 100 700 1) returns a different wakeup than the identical
call in a fresh process (computeNewWakeup 700 1, whose factors are seeded
by this very call, equal by definition to computeNewWakeupC 700 700 1). -/
theorem computeNewWakeup_static_factor_bug :
    computeNewWakeup 700 1 { sec := 0, nsec := 0 } { sec := 0, nsec := 0 }
        { sec := 0, nsec := 1000000 } =
      computeNewWakeupC 700 700 1 { sec := 0, nsec := 0 }
        { sec := 0, nsec := 0 } { sec := 0, nsec := 1000000 } ∧
    computeNewWakeupC 100 700 1 { sec := 0, nsec := 0 }
        { sec := 0, nsec := 0 } { sec := 0, nsec := 1000000 } ≠
      computeNewWakeup 700 1 { sec := 0, nsec := 0 } { sec := 0, nsec := 0 }
        { sec := 0, nsec := 1000000 } := by
  refine ⟨rfl, ?_⟩
  have hkPi := kPi_pos
  have hub : kPi < 3.15 := by unfold kPi; norm_num
  have hlb : (3.14 : ℝ) < kPi := by unfold kPi; norm_num
  have hargC : nanoToRad 100 (toNano { sec := 0, nsec := 0 } -
      toNano { sec := 0, nsec := 1000000 }) = -(kPi / 5) := by
    unfold nanoToRad toNano kSecToNano
    push_cast
    ring
  have hargT : nanoToRad 700 (toNano { sec := 0, nsec := 0 } -
      toNano { sec := 0, nsec := 1000000 }) = -(7 * kPi / 5) := by
    unfold nanoToRad toNano kSecToNano
    push_cast
    ring
  have hs1 : (0.5 : ℝ) < Real.sin (kPi / 5) := by
    refine lt_of_le_of_lt ?_
      (Real.sin_gt_sub_cube (x := kPi / 5) (by unfold kPi; norm_num)
        (by unfold kPi; norm_num))
    unfold kPi
    norm_num
  have hs1ub : Real.sin (kPi / 5) ≤ 1 := Real.sin_le_one _
  have hs2neg : Real.sin (7 * kPi / 5) < 0 := by
    have hpi1 : Real.pi < 3.15 := Real.pi_lt_d2
    have hpi2 : (3 : ℝ) < Real.pi := Real.pi_gt_three
    have hsplit : 7 * kPi / 5 = (7 * kPi / 5 - Real.pi) + Real.pi := by ring
    rw [hsplit, Real.sin_add_pi]
    have hpos := Real.sin_pos_of_pos_of_lt_pi
      (x := 7 * kPi / 5 - Real.pi) (by nlinarith) (by nlinarith)
    linarith
  rw [computeNewWakeupC_eq 100 700 1 _ _ _ (by norm_num), computeNewWakeup,
    computeNewWakeupC_eq 700 700 1 _ _ _ (by norm_num), hargC, hargT,
    Real.sin_neg, Real.sin_neg]
  set s1 := Real.sin (kPi / 5) with hs1def
  set s2 := Real.sin (7 * kPi / 5) with hs2def
  set OC := (1 / ((700 : ℤ) : ℝ)) * kSecToNano +
    radToNano 100 (1 / 2 * -s1) with hOC
  set OT := (1 / ((700 : ℤ) : ℝ)) * kSecToNano +
    radToNano 700 (1 / 2 * -s2) with hOT
  have hOCid : OC = 1000000000 / 700 - s1 * (1000000000 / (400 * kPi)) := by
    rw [hOC]
    unfold radToNano kSecToNano
    push_cast
    field_simp
    ring
  have hOTid : OT = 1000000000 / 700 - s2 * (1000000000 / (2800 * kPi)) := by
    rw [hOT]
    unfold radToNano kSecToNano
    push_cast
    field_simp
    ring
  have hF4lb : (793650 : ℝ) ≤ 1000000000 / (400 * kPi) := by
    rw [le_div_iff₀ (by positivity)]
    nlinarith
  have hF4ub : (1000000000 : ℝ) / (400 * kPi) ≤ 796179 := by
    rw [div_le_iff₀ (by positivity)]
    nlinarith
  have hF28ub : (1000000000 : ℝ) / (2800 * kPi) ≤ 113767 := by
    rw [div_le_iff₀ (by positivity)]
    nlinarith
  have hOC_ub : OC ≤ 1031747 := by
    rw [hOCid]
    have : (0.5 : ℝ) * 793650 ≤ s1 * (1000000000 / (400 * kPi)) :=
      mul_le_mul (le_of_lt hs1) hF4lb (by norm_num) (by linarith)
    have h700 : (1000000000 : ℝ) / 700 ≤ 1428572 := by norm_num
    linarith
  have hOC_lb : 0 ≤ OC := by
    rw [hOCid]
    have : s1 * (1000000000 / (400 * kPi)) ≤ 1 * 796179 :=
      mul_le_mul hs1ub hF4ub (by positivity) (by norm_num)
    have h700 : (1428571 : ℝ) ≤ 1000000000 / 700 := by norm_num
    linarith
  have hOT_lb : (1428571 : ℝ) ≤ OT := by
    rw [hOTid]
    have : s2 * (1000000000 / (2800 * kPi)) ≤ 0 :=
      mul_nonpos_of_nonpos_of_nonneg (le_of_lt hs2neg) (by positivity)
    have h700 : (1428571 : ℝ) ≤ 1000000000 / 700 := by norm_num
    linarith
  have hOT_ub : OT ≤ 999999999 := by
    rw [hOTid]
    have hs2lb : -1 ≤ s2 := Real.neg_one_le_sin _
    have hF28pos : (0 : ℝ) ≤ 1000000000 / (2800 * kPi) := by positivity
    have : -(s2 * (1000000000 / (2800 * kPi))) ≤ 113767 := by nlinarith
    have h700 : (1000000000 : ℝ) / 700 ≤ 1428572 := by norm_num
    linarith
  have hflC_ub : ⌊OC⌋ ≤ 1031747 := by
    have := le_trans (Int.floor_le OC) hOC_ub
    exact_mod_cast this
  have hflC_lb : 0 ≤ ⌊OC⌋ := Int.floor_nonneg.mpr hOC_lb
  have hflT_lb : (1428571 : ℤ) ≤ ⌊OT⌋ := Int.le_floor.mpr (by exact_mod_cast hOT_lb)
  have hflT_ub : ⌊OT⌋ ≤ 999999999 := by
    have := le_trans (Int.floor_le OT) hOT_ub
    exact_mod_cast this
  rw [truncLong_of_nonneg hOC_lb, truncLong_of_nonneg (by linarith : (0:ℝ) ≤ OT)]
  rw [normalizeTime_eq_self _ (by show (0 : ℤ) + ⌊OC⌋ < 1000000000; omega),
    normalizeTime_eq_self _ (by show (0 : ℤ) + ⌊OT⌋ < 1000000000; omega)]
  intro hcontra
  have : (0 : ℤ) + ⌊OC⌋ = 0 + ⌊OT⌋ := congrArg Timespec.nsec hcontra
  omega

lemma concStep_inv (oS oN nS nN : ℤ) (t : Bool) (s : SlotState)
    (h : concInv oS oN nS nN s) : concInv oS oN nS nN (concStep nS nN t s) := by
  obtain ⟨ss, sn, lh, w, r, rs, rn⟩ := s
  simp only [concInv, concStep] at h ⊢
  cases t <;> simp only [Bool.false_eq_true, if_true, if_false] <;>
    split_ifs <;> simp_all <;> omega

lemma concRun_inv (oS oN nS nN : ℤ) (sched : List Bool) (s : SlotState)
    (h : concInv oS oN nS nN s) :
    concInv oS oN nS nN (concRun nS nN sched s) := by
  induction sched generalizing s with
  | nil => exact h
  | cons t rest ih => exact ih _ (concStep_inv oS oN nS nN t s h)

/-- C4: in every interleaving of the recorder, which locks, stores both
timestamp fields and unlocks, with the oscillator, which locks, copies both
fields and unlocks, once the oscillator has completed its copy the pair it
read is either the complete previously stored timestamp or the complete
newly written one, never a mixture of the two. -/
theorem slot_read_not_torn (oS oN nS nN : ℤ) (sched : List Bool)
    (h : 3 ≤ (concRun nS nN sched (initSlot oS oN)).rpc) :
    ((concRun nS nN sched (initSlot oS oN)).readSec = oS ∧
      (concRun nS nN sched (initSlot oS oN)).readNsec = oN) ∨
    ((concRun nS nN sched (initSlot oS oN)).readSec = nS ∧
      (concRun nS nN sched (initSlot oS oN)).readNsec = nN) := by
  have hinv0 : concInv oS oN nS nN (initSlot oS oN) := by
    simp [concInv, initSlot]
  obtain ⟨-, -, -, -, -, -, -, -, -, hfinal⟩ :=
    concRun_inv oS oN nS nN sched (initSlot oS oN) hinv0
  exact hfinal h

/-- C4 witness: the schedule where the oscillator runs its four actions
first reads the previously stored timestamp (1, 2) completely. -/
theorem slot_read_not_torn_witness :
    3 ≤ (concRun 3 4 [false, false, false, false] (initSlot 1 2)).rpc ∧
    (((concRun 3 4 [false, false, false, false] (initSlot 1 2)).readSec = 1 ∧
      (concRun 3 4 [false, false, false, false] (initSlot 1 2)).readNsec = 2) ∨
     ((concRun 3 4 [false, false, false, false] (initSlot 1 2)).readSec = 3 ∧
      (concRun 3 4 [false, false, false, false] (initSlot 1 2)).readNsec = 4)) :=
  ⟨by decide, slot_read_not_torn 1 2 3 4 [false, false, false, false] (by decide)⟩

/-- C5: with key > 0, when the exclusive create succeeds the handle is the
creator and the embedded mutex is initialized with the errorcheck,
process-shared and priority-inheritance attributes; when the segment
already exists the call attaches, the handle is not the creator, and the
mutex is not re-initialized. -/
theorem shmemInit_creator_spec (env : ShmEnv) (k : ℤ) (hk : 0 < k) :
    (env.segExists = false → 0 ≤ env.newId → env.attachWord ≠ -1 →
      env.mutexInitRc = 0 →
      shmemInit env k =
        some { isOwner := true,
               mutexSetup := some { kind := .errorcheck,
                                    shared := .processShared,
                                    protocol := .prioInherit } }) ∧
    (env.segExists = true → 0 ≤ env.existingId → env.attachWord ≠ -1 →
      shmemInit env k = some { isOwner := false, mutexSetup := none }) := by
  have hk' : ¬ k ≤ 0 := by omega
  constructor
  · intro h1 h2 h3 h4
    have hid : ¬ env.newId < 0 := by omega
    simp [shmemInit, hk', h1, hid, h3, h4]
  · intro h1 h2 h3
    have hid : ¬ env.existingId < 0 := by omega
    simp [shmemInit, hk', h1, hid, h3]

/-- C5 witness: instantiation of both branches, once with a fresh segment
and once with an existing one. -/
theorem shmemInit_creator_spec_witness :
    shmemInit { segExists := false, newId := 3, existingId := 0,
                attachOk := true, attachWord := 0, mutexInitRc := 0 } 42 =
      some { isOwner := true,
             mutexSetup := some { kind := .errorcheck,
                                  shared := .processShared,
                                  protocol := .prioInherit } } ∧
    shmemInit { segExists := true, newId := -1, existingId := 5,
                attachOk := true, attachWord := 0, mutexInitRc := 0 } 42 =
      some { isOwner := false, mutexSetup := none } :=
  ⟨(shmemInit_creator_spec
      { segExists := false, newId := 3, existingId := 0, attachOk := true,
        attachWord := 0, mutexInitRc := 0 } 42 (by norm_num)).1 rfl
      (by norm_num) (by norm_num) rfl,
   (shmemInit_creator_spec
      { segExists := true, newId := -1, existingId := 5, attachOk := true,
        attachWord := 0, mutexInitRc := 0 } 42 (by norm_num)).2 rfl
      (by norm_num) (by norm_num)⟩

/-- C9: the post-attach failure check of Initialize inspects the int value
stored at the start of the attached segment, not the attach return code:
with key > 0 the call returns none whenever that word equals -1, whatever
the other responses, and its outcome never depends on whether the attach
itself succeeded. -/
theorem shmemInit_attach_check (env : ShmEnv) (k : ℤ) (_hk : 0 < k) :
    (env.attachWord = -1 → shmemInit env k = none) ∧
    (∀ b : Bool, shmemInit { env with attachOk := b } k = shmemInit env k) := by
  constructor
  · intro hw
    unfold shmemInit
    by_cases hk0 : k ≤ 0
    · rw [if_pos hk0]
    · rw [if_neg hk0]
      simp only
      by_cases hid : (if env.segExists then env.existingId else env.newId) < 0
      · rw [if_pos hid]
      · rw [if_neg hid, if_pos hw]
  · intro b
    obtain ⟨e1, e2, e3, e4, e5, e6⟩ := env
    rfl

/-- C9 witness: a call where the attach succeeded but the first word of the
segment is -1 returns none, and flipping the attach success bit never
changes the outcome. -/
theorem shmemInit_attach_check_witness :
    shmemInit { segExists := false, newId := 3, existingId := 0,
                attachOk := true, attachWord := -1, mutexInitRc := 0 } 42 =
      none ∧
    shmemInit { segExists := false, newId := 3, existingId := 0,
                attachOk := false, attachWord := -1, mutexInitRc := 0 } 42 =
      shmemInit { segExists := false, newId := 3, existingId := 0,
                  attachOk := true, attachWord := -1, mutexInitRc := 0 } 42 :=
  ⟨(shmemInit_attach_check
      { segExists := false, newId := 3, existingId := 0, attachOk := true,
        attachWord := -1, mutexInitRc := 0 } 42 (by norm_num)).1 rfl,
   (shmemInit_attach_check
      { segExists := false, newId := 3, existingId := 0, attachOk := true,
        attachWord := -1, mutexInitRc := 0 } 42 (by norm_num)).2 false⟩

/-- C7 counterexample: writing the edge mode on a line whose direction file
reads out leaves the direction file unchanged, so after EdgeType(kRising)
the direction getter still reports output, refuting the claim that the
edge-mode setter forces the direction to input. -/
theorem edgeTypeSet_direction_counterexample :
    dirGet (edgeTypeSet GpioEdge.kRising
        { direction := "out", edge := "none", value := "0" }) ≠
      GpioDirection.kInput := by
  decide

/-- C7 amended: the edge-mode setter EdgeType(edge) only writes the edge
file and never changes the direction; it is WaitForEdge that forces the
direction to input (its first action writes in to the direction file). -/
theorem edgeTypeSet_direction (e : GpioEdge) (fs : GpioFs) :
    (edgeTypeSet e fs).direction = fs.direction ∧
    dirGet (waitForEdgeFsEffect fs) = GpioDirection.kInput := by
  constructor
  · cases e <;> rfl
  · simp [waitForEdgeFsEffect, dirSet, dirGet]

/-- C10: the recorder loop publishes the current monotonic time to the
shared slot on every iteration with the exit flag unset, whatever
WaitForEdge returned: the list of published timestamps is exactly the list
of per-iteration clock readings, and flipping every WaitForEdge result
changes nothing, so a timestamp can be published after a failed wait, with
no GPIO edge having occurred. -/
theorem gtimerRecorderRun_publishes (cycles : List (Bool × Timespec))
    (slot : Timespec) :
    (gtimerRecorderRun cycles slot).2 = cycles.map Prod.snd ∧
    gtimerRecorderRun (cycles.map (fun c => (!c.1, c.2))) slot =
      gtimerRecorderRun cycles slot := by
  induction cycles generalizing slot with
  | nil => exact ⟨rfl, rfl⟩
  | cons c rest ih =>
    obtain ⟨w, now⟩ := c
    refine ⟨?_, ?_⟩
    · simp only [gtimerRecorderRun, List.map]
      rw [(ih now).1]
    · simp only [gtimerRecorderRun, List.map]
      rw [(ih now).2]

end GpioSync
